import Mathlib

/-!
Verification of the Day 17 "Pyroclastic Flow" cyclic tower simulator
(`PlayField` / `JetStream` in `AoCLib/Sorters.py`).

The playing field is a list of 7-bit row masks, index 0 being the full
floor row `127`.  Rocks (lists of row masks, bottom row first) fall in a
tetris-like fashion, pushed sideways by a cyclic jet pattern.  Cycle
information is established by `set_cycle_info` and tower heights for
arbitrary drop counts are extrapolated by `get_tallest_tower`.

Python's bounded loops (`while True` inside one drop, the two
`_drop_until_jet_offset` loops) are modelled with explicit fuel; a fueled
function returns `none` when the fuel runs out, which on the outer loops
faithfully captures possible non-termination.  Python exceptions
(`KeyError` on the drop-record dict, `ZeroDivisionError` in `divmod`)
are modelled as `none` results.
-/

set_option maxRecDepth 40000

namespace AoC17

/-- `bit_set` from `AoCLib`: bit at offset `bit_nr` is set in `n`. -/
def bit_set (n bit_nr : Nat) : Bool :=
  2 ^ bit_nr &&& n == 2 ^ bit_nr

/-- `PlayField._rows_overlap`: some rock row intersects the matching field
row (`zip` truncates to the shorter list, as in Python). -/
def rows_overlap (rock field : List Nat) : Bool :=
  (rock.zip field).any fun p => p.1 &&& p.2 != 0

/-- `PlayField._shifted_right`. -/
def shifted_right (rock : List Nat) : List Nat :=
  rock.map fun i => i >>> 1

/-- `PlayField._shifted_left`. -/
def shifted_left (rock : List Nat) : List Nat :=
  rock.map fun i => i <<< 1

/-- `PlayField._all_leftmost_bit_cleared`. -/
def all_leftmost_bit_cleared (rock : List Nat) : Bool :=
  ! rock.any fun n => bit_set n 6

/-- `PlayField._all_rightmost_bit_cleared`. -/
def all_rightmost_bit_cleared (rock : List Nat) : Bool :=
  ! rock.any fun n => bit_set n 0

/-- `PlayField._can_move_to_left`. -/
def can_move_to_left (rock play_field : List Nat) : Bool :=
  all_leftmost_bit_cleared rock && ! rows_overlap (shifted_left rock) play_field

/-- `PlayField._can_move_to_right`. -/
def can_move_to_right (rock play_field : List Nat) : Bool :=
  all_rightmost_bit_cleared rock && ! rows_overlap (shifted_right rock) play_field

/-- The `JetStream` state: the jet pattern, the cursor offset, and the
total number of jets yielded so far. -/
structure JetStream where
  jets : List Char
  offset : Nat
  yielded : Nat
  deriving DecidableEq, Repr

/-- `JetStream.__next__`: return the current jet character and advance the
cursor (wrapping modulo the pattern length), counting the yield. -/
def JetStream.next (js : JetStream) : Char × JetStream :=
  (js.jets.getD js.offset '<',
   { js with offset := (js.offset + 1) % js.jets.length,
             yielded := js.yielded + 1 })

/-- The mutable `PlayField` simulation state: the field rows (index 0 is
the floor row `127`), the jet stream, the number of rocks dropped, and the
drop-record table `_d2h` (an association list, most recent drop first,
modelling the Python dict `nr dropped -> post-drop height`). -/
structure SimState where
  field : List Nat
  js : JetStream
  rocksDropped : Nat
  d2h : List (Nat × Nat)
  deriving DecidableEq, Repr

/-- The five rock shapes from `main`, bottom row first. -/
def rocks : List (List Nat) :=
  [[30], [8, 28, 8], [28, 4, 4], [16, 16, 16, 16], [24, 24]]

/-- Length of leading zeros of a list. -/
def leading_zeros : List Nat → Nat
  | [] => 0
  | x :: xs => if x = 0 then leading_zeros xs + 1 else 0

/-- Number of empty (all-zero) rows at the top of the field, as counted by
the loop in `PlayField._height`. -/
def count_empty_top (field : List Nat) : Nat :=
  leading_zeros field.reverse

/-- `PlayField._height`: rows up to and including the topmost non-empty
row, not counting the floor row. -/
def pf_height (field : List Nat) : Nat :=
  field.length - count_empty_top field - 1

/-- The `while not self[-1]: del self[-1]` loop of `_prepare_drop`:
remove all empty rows at the top of the field. -/
def trim_top (field : List Nat) : List Nat :=
  (field.reverse.dropWhile fun x => x == 0).reverse

/-- The field produced by `PlayField._prepare_drop`: empty top rows
removed, then exactly four empty rows appended. -/
def prepared_field (field : List Nat) : List Nat :=
  trim_top field ++ [0, 0, 0, 0]

/-- `PlayField._try_move_down`: the rock can move one row down iff it does
not overlap the field rows starting one below its current offset. -/
def try_move_down (field rock : List Nat) (rock_start_offset : Nat) : Bool :=
  ! rows_overlap rock ((field.drop (rock_start_offset - 1)).take rock.length)

/-- `PlayField._try_move_sideways`: consume one jet and shift the rock in
that direction when the boundary and collision checks allow it. -/
def try_move_sideways (field rock : List Nat) (rock_start_offset : Nat)
    (js : JetStream) : List Nat × JetStream :=
  let destination := (field.drop rock_start_offset).take rock.length
  let dj := js.next
  if dj.1 = '>' then
    (if can_move_to_right rock destination then shifted_right rock else rock, dj.2)
  else
    (if can_move_to_left rock destination then shifted_left rock else rock, dj.2)

/-- The `while True` loop of `PlayField._drop_next_rock`, with fuel.
Returns the rock (as possibly shifted), its rest offset, the advanced jet
stream, and the number of successful down-moves performed. -/
def drop_loop (field : List Nat) :
    Nat → List Nat → Nat → JetStream → Option (List Nat × Nat × JetStream × Nat)
  | 0, _, _, _ => none
  | fuel + 1, rock, off, js =>
    let rj := try_move_sideways field rock off js
    if try_move_down field rj.1 off then
      match drop_loop field fuel rj.1 (off - 1) rj.2 with
      | none => none
      | some (r, o, j, d) => some (r, o, j, d + 1)
    else
      some (rj.1, off, rj.2, 0)

/-- Merge a rock into the field rows with bitwise or (the loop body of
`PlayField._put_on_playfield`). -/
def or_into : List Nat → List Nat → List Nat
  | f, [] => f
  | [], _ => []
  | v :: f, r :: rs => (v ||| r) :: or_into f rs

/-- `PlayField._put_on_playfield`'s field update: or the rock rows into
the field starting at `off`. -/
def put_rock (field rock : List Nat) (off : Nat) : List Nat :=
  field.take off ++ or_into (field.drop off) rock

/-- `PlayField._drop_next_rock` (with `_prepare_drop` inlined): pick the
next rock shape, reshape the top of the field, run the drop loop, merge
the rock and record the post-drop height in the drop-record table.  Also
returns the number of successful down-moves of this drop.  The drop loop
gets fuel equal to the prepared field length, which the loop (whose
offset strictly decreases) can never exhaust on the real rock shapes. -/
def drop_next_rock (s : SimState) : Option (SimState × Nat) :=
  let rock := rocks.getD (s.rocksDropped % 5) []
  let field := prepared_field s.field
  match drop_loop field field.length rock (field.length - 1) s.js with
  | none => none
  | some (r, o, j, downs) =>
    let field2 := put_rock field r o
    let dropped := s.rocksDropped + 1
    some ({ field := field2, js := j, rocksDropped := dropped,
            d2h := (dropped, pf_height field2) :: s.d2h }, downs)

/-- `PlayField._drop_until_jet_offset`: drop rocks until
`cmp jets_yielded jet_offset` holds, with fuel bounding the number of
drops. -/
def drop_until (cmp : Nat → Nat → Bool) (jet_offset : Nat) :
    Nat → SimState → Option SimState
  | 0, s => if cmp s.js.yielded jet_offset then some s else none
  | fuel + 1, s =>
    if cmp s.js.yielded jet_offset then some s
    else
      match drop_next_rock s with
      | none => none
      | some p => drop_until cmp jet_offset fuel p.1

/-- The initial `PlayField` state: floor row only, fresh jet stream,
nothing dropped, empty drop record. -/
def init_state (jets : List Char) : SimState :=
  { field := [127], js := { jets := jets, offset := 0, yielded := 0 },
    rocksDropped := 0, d2h := [] }

/-- The cycle descriptor established by `PlayField._set_cycle_info`,
together with the final simulation state. -/
structure PlayFieldCycle where
  sim : SimState
  dropsBefore : Nat
  heightBefore : Nat
  cycleDrops : Nat
  cycleHeight : Int
  deriving DecidableEq, Repr

/-- `jets_per_cycle` of `_set_cycle_info`: jet pattern length times the
number of rock shapes. -/
def jets_per_cycle (jets : List Char) : Nat :=
  jets.length * rocks.length

/-- `PlayField.__init__` followed by `_set_cycle_info`: drop rocks until
the cumulative jet count reaches `jets_per_cycle` (comparison `>=`),
read the pre-cycle height from the drop record (`none` models the
`KeyError`), then drop until the cumulative jet count equals its value
plus another `jets_per_cycle` (comparison `==`). -/
def construct (jets : List Char) (fuel : Nat) : Option PlayFieldCycle :=
  match drop_until (fun a b => b ≤ a) (jets_per_cycle jets) fuel (init_state jets) with
  | none => none
  | some s1 =>
    match s1.d2h.lookup s1.rocksDropped with
    | none => none
    | some hB =>
      match drop_until (fun a b => a == b) (s1.js.yielded + jets_per_cycle jets) fuel s1 with
      | none => none
      | some s2 =>
        some { sim := s2, dropsBefore := s1.rocksDropped, heightBefore := hB,
               cycleDrops := s2.rocksDropped - s1.rocksDropped,
               cycleHeight := (pf_height s2.field : Int) - (hB : Int) }

/-- `PlayField.get_tallest_tower`: extrapolate the tower height after
`nr_drops` drops from the cycle descriptor.  Python's `divmod` on a
possibly negative dividend with positive divisor is floored division,
i.e. `Int.ediv`/`Int.emod` here; `none` models `ZeroDivisionError`
(zero `cycleDrops`) and `KeyError` (missing drop record). -/
def get_tallest_tower (p : PlayFieldCycle) (nr_drops : Nat) : Option Int :=
  if p.cycleDrops = 0 then none
  else
    let nr_cycles := Int.ediv ((nr_drops : Int) - (p.dropsBefore : Int)) (p.cycleDrops : Int)
    let drops_after := Int.emod ((nr_drops : Int) - (p.dropsBefore : Int)) (p.cycleDrops : Int)
    match p.sim.d2h.lookup (p.dropsBefore + drops_after.toNat) with
    | none => none
    | some h =>
      some ((p.heightBefore : Int) + nr_cycles * p.cycleHeight
              + ((h : Int) - (p.heightBefore : Int)))


/-- The closed-form answer as the spec states it: with
`q, r = divmod(N - drops_before_cycle, drops_per_cycle)` on natural
numbers, the result is `height_before_cycle + q * height_per_cycle +
(recorded_height[drops_before_cycle + r] - height_before_cycle)`. -/
def spec_height (p : PlayFieldCycle) (n : Nat) : Option Int :=
  if p.cycleDrops = 0 then none
  else
    let q := (n - p.dropsBefore) / p.cycleDrops
    let r := (n - p.dropsBefore) % p.cycleDrops
    match p.sim.d2h.lookup (p.dropsBefore + r) with
    | none => none
    | some h =>
      some ((p.heightBefore : Int) + (q : Int) * p.cycleHeight
              + ((h : Int) - (p.heightBefore : Int)))

/-- The drop-record table has keys `n, n-1, …, 1` in order. -/
def keys_from : List (Nat × Nat) → Nat → Bool
  | [], n => n == 0
  | _ :: _, 0 => false
  | p :: t, n + 1 => p.1 == n + 1 && keys_from t n

/-- Recorded heights never decrease with the drop number (the table is
ordered most recent first). -/
def values_mono : List (Nat × Nat) → Bool
  | [] => true
  | [_] => true
  | p :: q :: t => decide (q.2 ≤ p.2) && values_mono (q :: t)

/-- The most recent record equals the current field height. -/
def head_link (s : SimState) : Bool :=
  match s.d2h with
  | [] => true
  | p :: _ => p.2 == pf_height s.field

/-- Invariant of every reachable simulation state. -/
def SimInv (s : SimState) : Prop :=
  keys_from s.d2h s.rocksDropped = true
  ∧ values_mono s.d2h = true
  ∧ head_link s = true

instance (s : SimState) : Decidable (SimInv s) := by
  unfold SimInv; infer_instance

/-! ### Concrete scenarios -/

/-- The published example jet pattern of the puzzle. -/
def test_jets : List Char :=
  ">>><<><>><<<>><>>><<<>>><<<><<<>><>><<>>".toList

/-- A two-jet pattern on which construction terminates quickly. -/
def small_jets : List Char := ['<', '>']

/-- The cycle descriptor obtained by constructing on `small_jets`. -/
def small_cycle : PlayFieldCycle :=
  { sim := { field := [127, 30, 8, 28, 8, 28, 20, 20, 16, 16, 24, 24, 0, 0],
             js := { jets := ['<', '>'], offset := 0, yielded := 22 },
             rocksDropped := 5,
             d2h := [(5, 11), (4, 9), (3, 7), (2, 4), (1, 1)] },
    dropsBefore := 3, heightBefore := 7, cycleDrops := 2, cycleHeight := 4 }

/-- A one-jet pattern on which the second phase of `_set_cycle_info`
overshoots its equality target and therefore never terminates. -/
def bad_jets : List Char := ['<']

/-- The state after the first phase of `_set_cycle_info` on `bad_jets`:
two rocks dropped, eight jets consumed (at least the period `5`). -/
def badS1 : SimState :=
  { field := [127, 120, 32, 112, 32, 0],
    js := { jets := ['<'], offset := 0, yielded := 8 },
    rocksDropped := 2, d2h := [(2, 4), (1, 1)] }

/-- One drop after `badS1`: twelve jets consumed, still below the
second-phase target of thirteen. -/
def badS2 : SimState :=
  { field := [127, 120, 32, 112, 32, 112, 16, 16, 0],
    js := { jets := ['<'], offset := 0, yielded := 12 },
    rocksDropped := 3, d2h := [(3, 7), (2, 4), (1, 1)] }

/-- One drop after `badS2`: eighteen jets consumed, past the target of
thirteen, which the equality comparison can never meet again. -/
def badS3 : SimState :=
  { field := [127, 120, 32, 112, 32, 112, 80, 80, 64, 64, 0, 0],
    js := { jets := ['<'], offset := 0, yielded := 18 },
    rocksDropped := 4, d2h := [(4, 9), (3, 7), (2, 4), (1, 1)] }

/-- Construction runs out of any amount of fuel: the Python original
loops forever. -/
def construct_diverges (jets : List Char) : Prop :=
  ∀ fuel, construct jets fuel = none

/-- The number of rocks actually simulated during construction. -/
def construct_drops (jets : List Char) (fuel : Nat) : Option Nat :=
  (construct jets fuel).map fun p => p.sim.rocksDropped

/-- The cycle descriptor obtained by constructing on `test_jets`
(printed out from evaluating the model). -/
def test_cycle : PlayFieldCycle :=
  { sim := { field := [127, 30, 8, 28, 124, 20, 20, 4, 6, 6, 60, 16, 56, 126, 102, 70,
               68, 68, 79, 8, 28, 15, 1, 1, 3, 3, 30, 8, 28, 8, 28, 52, 52, 4, 4, 4, 4,
               62, 23, 18, 23, 17, 49, 48, 30, 11, 31, 120, 80, 80, 124, 68, 14, 4, 28,
               52, 52, 4, 4, 4, 4, 62, 63, 42, 40, 56, 56, 62, 119, 61, 61, 36, 36, 62,
               2, 7, 30, 28, 28, 30, 8, 28, 8, 28, 52, 52, 4, 4, 4, 4, 62, 23, 18, 23,
               17, 49, 48, 30, 11, 31, 120, 80, 80, 124, 68, 14, 4, 28, 52, 52, 4, 4,
               4, 4, 62, 7, 2, 0, 0],
             js := { jets := test_jets, offset := 3, yielded := 403 },
             rocksDropped := 72,
             d2h := [(72, 116), (71, 114), (70, 113), (69, 113), (68, 109), (67, 106),
               (66, 104), (65, 104), (64, 104), (63, 102), (62, 100), (61, 97),
               (60, 96), (59, 95), (58, 95), (57, 92), (56, 90), (55, 89), (54, 89),
               (53, 85), (52, 82), (51, 79), (50, 78), (49, 78), (48, 78), (47, 76),
               (46, 73), (45, 72), (44, 72), (43, 70), (42, 69), (41, 67), (40, 66),
               (39, 66), (38, 64), (37, 63), (36, 61), (35, 60), (34, 60), (33, 56),
               (32, 53), (31, 51), (30, 51), (29, 51), (28, 49), (27, 47), (26, 44),
               (25, 43), (24, 42), (23, 42), (22, 39), (21, 37), (20, 36), (19, 36),
               (18, 32), (17, 29), (16, 26), (15, 25), (14, 23), (13, 23), (12, 21),
               (11, 18), (10, 17), (9, 17), (8, 15), (7, 13), (6, 10), (5, 9), (4, 7),
               (3, 6), (2, 4), (1, 1)] },
    dropsBefore := 37, heightBefore := 63, cycleDrops := 35, cycleHeight := 53 }

/-! ### Basic lemmas about the field operations -/

theorem lor_eq_zero_left {x y : Nat} (h : x ||| y = 0) : x = 0 := by
  apply Nat.eq_of_testBit_eq
  intro i
  have h2 := congrArg (fun n => n.testBit i) h
  simp only [Nat.testBit_lor] at h2
  simp only [Nat.zero_testBit] at h2 ⊢
  exact (Bool.or_eq_false_iff.mp h2).1

theorem or_into_length (f r : List Nat) : (or_into f r).length = f.length := by
  induction f generalizing r with
  | nil => cases r <;> rfl
  | cons v t ih => cases r with
    | nil => rfl
    | cons x xs => simp [or_into, ih]

theorem put_rock_length (f r : List Nat) (o : Nat) :
    (put_rock f r o).length = f.length := by
  simp [put_rock, or_into_length]
  omega

theorem or_into_zero_rel (f r : List Nat) :
    List.Forall₂ (fun x y => x = 0 → y = 0) (or_into f r) f := by
  induction f generalizing r with
  | nil => cases r <;> exact List.Forall₂.nil
  | cons v t ih =>
    cases r with
    | nil => exact (List.forall₂_same).2 fun x _ hx => hx
    | cons x xs =>
      exact List.Forall₂.cons (fun h => lor_eq_zero_left h) (ih xs)

theorem put_rock_zero_rel (f r : List Nat) (o : Nat) :
    List.Forall₂ (fun x y => x = 0 → y = 0) (put_rock f r o) f := by
  have h1 : List.Forall₂ (fun x y => x = 0 → y = 0) (f.take o) (f.take o) :=
    (List.forall₂_same).2 fun x _ hx => hx
  have h2 := or_into_zero_rel (f.drop o) r
  have := List.rel_append h1 h2
  simpa [List.take_append_drop] using this

theorem leading_zeros_le {a b : List Nat}
    (h : List.Forall₂ (fun x y => x = 0 → y = 0) a b) :
    leading_zeros a ≤ leading_zeros b := by
  induction h with
  | nil => exact Nat.le_refl 0
  | cons hxy _ ih =>
    rename_i x y l1 l2 _
    by_cases hx : x = 0
    · simp [leading_zeros, hx, hxy hx]
      omega
    · simp [leading_zeros, hx]

theorem count_empty_top_put_le (f r : List Nat) (o : Nat) :
    count_empty_top (put_rock f r o) ≤ count_empty_top f := by
  unfold count_empty_top
  exact leading_zeros_le ((List.forall₂_reverse_iff).2 (put_rock_zero_rel f r o))

theorem pf_height_put_ge (f r : List Nat) (o : Nat) :
    pf_height f ≤ pf_height (put_rock f r o) := by
  unfold pf_height
  have h1 := put_rock_length f r o
  have h2 := count_empty_top_put_le f r o
  omega

theorem leading_zeros_dropWhile (l : List Nat) :
    leading_zeros (l.dropWhile fun x => x == 0) = 0 := by
  induction l with
  | nil => rfl
  | cons x xs ih =>
    by_cases hx : x = 0
    · have hb : (x == 0) = true := by simpa using hx
      simpa [List.dropWhile, hb] using ih
    · have hb : (x == 0) = false := by simpa using hx
      simp [List.dropWhile, hb, leading_zeros, hx]

theorem leading_zeros_eq_takeWhile (l : List Nat) :
    leading_zeros l = (l.takeWhile fun x => x == 0).length := by
  induction l with
  | nil => rfl
  | cons x xs ih =>
    by_cases hx : x = 0
    · have hb : (x == 0) = true := by simpa using hx
      simp [leading_zeros, List.takeWhile, hb, hx, ih]
    · have hb : (x == 0) = false := by simpa using hx
      simp [leading_zeros, List.takeWhile, hb, hx]

theorem trim_top_length (f : List Nat) :
    (trim_top f).length = f.length - count_empty_top f := by
  have hsplit := List.takeWhile_append_dropWhile (p := fun x : Nat => x == 0)
      (l := f.reverse)
  have hlen := congrArg List.length hsplit
  simp only [List.length_append, List.length_reverse] at hlen
  have htw := leading_zeros_eq_takeWhile f.reverse
  have hgoal : (trim_top f).length
      = (f.reverse.dropWhile fun x : Nat => x == 0).length := by
    simp [trim_top]
  rw [hgoal]
  unfold count_empty_top
  omega

theorem count_empty_top_prepared (f : List Nat) :
    count_empty_top (prepared_field f) = 4 := by
  unfold count_empty_top prepared_field
  rw [List.reverse_append]
  have h2 : (trim_top f).reverse = f.reverse.dropWhile fun x : Nat => x == 0 := by
    simp [trim_top]
  have h1 : (([0, 0, 0, 0] : List Nat).reverse
      ++ (trim_top f).reverse) = 0 :: 0 :: 0 :: 0 :: (f.reverse.dropWhile fun x : Nat => x == 0) := by
    rw [h2]; rfl
  rw [h1]
  simp [leading_zeros, leading_zeros_dropWhile]

theorem prepared_field_length (f : List Nat) :
    (prepared_field f).length = (f.length - count_empty_top f) + 4 := by
  simp [prepared_field, trim_top_length]

theorem pf_height_prepared (f : List Nat) :
    pf_height (prepared_field f) = pf_height f := by
  unfold pf_height
  rw [count_empty_top_prepared, prepared_field_length]
  omega

/-! ### Lemmas about a single drop -/

theorem try_move_sideways_yielded (field rock : List Nat) (off : Nat) (js : JetStream) :
    (try_move_sideways field rock off js).2.yielded = js.yielded + 1 := by
  simp only [try_move_sideways, JetStream.next]
  split <;> rfl

/-- The three possible outcomes of `_try_move_sideways` for the rock. -/
theorem try_move_sideways_cases (field rock : List Nat) (off : Nat) (js : JetStream) :
    (try_move_sideways field rock off js).1 = rock
    ∨ ((try_move_sideways field rock off js).1 = shifted_right rock
        ∧ can_move_to_right rock ((field.drop off).take rock.length) = true)
    ∨ ((try_move_sideways field rock off js).1 = shifted_left rock
        ∧ can_move_to_left rock ((field.drop off).take rock.length) = true) := by
  by_cases hj : (js.next).1 = '>'
  · by_cases hc : can_move_to_right rock ((field.drop off).take rock.length) = true
    · exact Or.inr (Or.inl ⟨by simp [try_move_sideways, hj, hc], hc⟩)
    · exact Or.inl (by simp [try_move_sideways, hj, hc])
  · by_cases hc : can_move_to_left rock ((field.drop off).take rock.length) = true
    · exact Or.inr (Or.inr ⟨by simp [try_move_sideways, hj, hc], hc⟩)
    · exact Or.inl (by simp [try_move_sideways, hj, hc])

theorem drop_loop_yielded (field : List Nat) :
    ∀ fuel rock off js r o j d,
      drop_loop field fuel rock off js = some (r, o, j, d) →
      j.yielded = js.yielded + d + 1 := by
  intro fuel
  induction fuel with
  | zero => intro rock off js r o j d h; exact absurd h (by simp [drop_loop])
  | succ n ih =>
    intro rock off js r o j d h
    unfold drop_loop at h
    by_cases hd : try_move_down field (try_move_sideways field rock off js).1 off
    · rw [if_pos hd] at h
      cases hrec : drop_loop field n (try_move_sideways field rock off js).1 (off - 1)
          (try_move_sideways field rock off js).2 with
      | none => rw [hrec] at h; exact absurd h (by simp)
      | some q =>
        rw [hrec] at h
        obtain ⟨r', o', j', d'⟩ := q
        simp only [Option.some.injEq, Prod.mk.injEq] at h
        obtain ⟨h1, h2, h3, h4⟩ := h
        subst h1; subst h2; subst h3
        have := ih _ _ _ _ _ _ _ hrec
        rw [try_move_sideways_yielded] at this
        omega
    · rw [if_neg hd] at h
      simp only [Option.some.injEq, Prod.mk.injEq] at h
      obtain ⟨h1, h2, h3, h4⟩ := h
      subst h3; subst h4
      rw [try_move_sideways_yielded]

/-- Sideways moves preserve the no-overlap invariant at the current offset. -/
theorem try_move_sideways_no_overlap (field rock : List Nat) (off : Nat) (js : JetStream)
    (h : rows_overlap rock ((field.drop off).take rock.length) = false) :
    rows_overlap (try_move_sideways field rock off js).1
      ((field.drop off).take (try_move_sideways field rock off js).1.length) = false := by
  rcases try_move_sideways_cases field rock off js with hcase | ⟨hcase, hc⟩ | ⟨hcase, hc⟩
  · rw [hcase]; exact h
  · rw [hcase]
    have hlen : (shifted_right rock).length = rock.length := by simp [shifted_right]
    rw [hlen]
    unfold can_move_to_right at hc
    rw [Bool.and_eq_true] at hc
    simpa using hc.2
  · rw [hcase]
    have hlen : (shifted_left rock).length = rock.length := by simp [shifted_left]
    rw [hlen]
    unfold can_move_to_left at hc
    rw [Bool.and_eq_true] at hc
    simpa using hc.2

/-- The drop loop's collision invariant: if the falling rock does not
overlap the field rows at its current offset, then neither does the rock
at the rest position it finally returns. -/
theorem drop_loop_no_overlap (field : List Nat) :
    ∀ fuel rock off js r o j d,
      rows_overlap rock ((field.drop off).take rock.length) = false →
      drop_loop field fuel rock off js = some (r, o, j, d) →
      rows_overlap r ((field.drop o).take r.length) = false := by
  intro fuel
  induction fuel with
  | zero => intro rock off js r o j d _ h; exact absurd h (by simp [drop_loop])
  | succ n ih =>
    intro rock off js r o j d hinv h
    unfold drop_loop at h
    have hside := try_move_sideways_no_overlap field rock off js hinv
    by_cases hd : try_move_down field (try_move_sideways field rock off js).1 off
    · rw [if_pos hd] at h
      cases hrec : drop_loop field n (try_move_sideways field rock off js).1 (off - 1)
          (try_move_sideways field rock off js).2 with
      | none => rw [hrec] at h; exact absurd h (by simp)
      | some q =>
        rw [hrec] at h
        obtain ⟨r', o', j', d'⟩ := q
        simp only [Option.some.injEq, Prod.mk.injEq] at h
        obtain ⟨h1, h2, h3, h4⟩ := h
        subst h1; subst h2; subst h3
        refine ih _ _ _ _ _ _ _ ?_ hrec
        unfold try_move_down at hd
        simpa using hd
    · rw [if_neg hd] at h
      simp only [Option.some.injEq, Prod.mk.injEq] at h
      obtain ⟨h1, h2, h3, h4⟩ := h
      subst h1; subst h2
      exact hside

theorem rows_overlap_zeros (rock l : List Nat) (h : ∀ x ∈ l, x = 0) :
    rows_overlap rock l = false := by
  unfold rows_overlap
  rw [List.any_eq_false]
  intro p hp
  have hmem := List.of_mem_zip hp
  have := h p.2 hmem.2
  simp [this]

theorem prepared_field_suffix (f : List Nat) :
    ∀ k, k ≤ 4 → (prepared_field f).drop ((prepared_field f).length - k)
      = List.replicate k 0 := by
  intro k hk
  unfold prepared_field
  have hlen : (trim_top f ++ [0, 0, 0, 0] : List Nat).length = (trim_top f).length + 4 := by
    simp
  rw [hlen]
  have harr : (trim_top f).length + 4 - k = (trim_top f).length + (4 - k) := by omega
  rw [harr, List.drop_append]
  interval_cases k <;> rfl

/-- The first down-move of every drop succeeds: right after
`_prepare_drop` the two rows below the rock's bottom row are empty. -/
theorem first_down_succeeds (f rock : List Nat) :
    try_move_down (prepared_field f) rock ((prepared_field f).length - 1) = true := by
  unfold try_move_down
  have h2 : (prepared_field f).drop ((prepared_field f).length - 2)
      = ([0, 0] : List Nat) := by
    rw [prepared_field_suffix f 2 (by omega)]; rfl
  have harg : (prepared_field f).length - 1 - 1 = (prepared_field f).length - 2 := by omega
  rw [harg, h2]
  have hz := rows_overlap_zeros rock (([0, 0] : List Nat).take rock.length)
    (fun x hx => by
      have hm := List.mem_of_mem_take hx
      simpa using hm)
  simp [hz]

/-! ### Consequences of one full drop -/

theorem drop_next_rock_spec (s s' : SimState) (d : Nat)
    (h : drop_next_rock s = some (s', d)) :
    s'.rocksDropped = s.rocksDropped + 1
    ∧ s'.d2h = (s.rocksDropped + 1, pf_height s'.field) :: s.d2h
    ∧ pf_height s.field ≤ pf_height s'.field
    ∧ s.js.yielded < s'.js.yielded := by
  simp only [drop_next_rock] at h
  cases hl : drop_loop (prepared_field s.field) (prepared_field s.field).length
      (rocks.getD (s.rocksDropped % 5) []) ((prepared_field s.field).length - 1) s.js with
  | none => rw [hl] at h; exact absurd h (by simp)
  | some q =>
    rw [hl] at h
    obtain ⟨r, o, j, downs⟩ := q
    simp only [Option.some.injEq, Prod.mk.injEq] at h
    obtain ⟨h1, h2⟩ := h
    subst h1
    have hy := drop_loop_yielded (prepared_field s.field) _ _ _ _ _ _ _ _ hl
    refine ⟨rfl, rfl, ?_, ?_⟩
    · calc pf_height s.field = pf_height (prepared_field s.field) :=
            (pf_height_prepared s.field).symm
        _ ≤ pf_height (put_rock (prepared_field s.field) r o) :=
            pf_height_put_ge _ r o
    · simp only []
      omega

/-! ### The drop-record invariant -/

theorem simInv_init (jets : List Char) : SimInv (init_state jets) :=
  ⟨rfl, rfl, rfl⟩

theorem simInv_drop (s s' : SimState) (d : Nat)
    (h : drop_next_rock s = some (s', d)) (hinv : SimInv s) : SimInv s' := by
  obtain ⟨hk, hv, hh⟩ := hinv
  obtain ⟨h1, h2, h3, _⟩ := drop_next_rock_spec s s' d h
  refine ⟨?_, ?_, ?_⟩
  · rw [h2, h1]
    simp [keys_from, hk]
  · rw [h2]
    cases hd : s.d2h with
    | nil => rfl
    | cons p t =>
      have hp : p.2 = pf_height s.field := by
        unfold head_link at hh
        rw [hd] at hh
        simpa using hh
      have hvt : values_mono (p :: t) = true := by rw [hd] at hv; exact hv
      show values_mono ((s.rocksDropped + 1, pf_height s'.field) :: p :: t) = true
      unfold values_mono
      rw [Bool.and_eq_true]
      exact ⟨by simp [hp]; omega, hvt⟩
  · unfold head_link
    rw [h2]
    simp

/-! ### Lemmas about the drop-until loops -/

theorem drop_until_cond (cmp : Nat → Nat → Bool) (t fuel : Nat) (s : SimState)
    (h : cmp s.js.yielded t = true) :
    drop_until cmp t fuel s = some s := by
  cases fuel <;> simp [drop_until, h]

theorem drop_until_step (cmp : Nat → Nat → Bool) (t fuel : Nat) (s s' : SimState) (d : Nat)
    (hcond : cmp s.js.yielded t = false) (hdrop : drop_next_rock s = some (s', d)) :
    drop_until cmp t (fuel + 1) s = drop_until cmp t fuel s' := by
  simp [drop_until, hcond, hdrop]

theorem drop_until_fuel_succ (cmp : Nat → Nat → Bool) (t : Nat) :
    ∀ fuel (s s1 : SimState), drop_until cmp t fuel s = some s1 →
      drop_until cmp t (fuel + 1) s = some s1 := by
  intro fuel
  induction fuel with
  | zero =>
    intro s s1 h
    by_cases hc : cmp s.js.yielded t = true
    · rw [drop_until_cond _ _ _ _ hc] at h
      rw [drop_until_cond _ _ _ _ hc]
      exact h
    · unfold drop_until at h
      rw [if_neg hc] at h
      exact absurd h (by simp)
  | succ n ih =>
    intro s s1 h
    by_cases hc : cmp s.js.yielded t = true
    · rw [drop_until_cond _ _ _ _ hc] at h
      rw [drop_until_cond _ _ _ _ hc]
      exact h
    · have hc' : cmp s.js.yielded t = false := by simpa using hc
      cases hd : drop_next_rock s with
      | none => simp [drop_until, hc', hd] at h
      | some p =>
        have hd' : drop_next_rock s = some (p.1, p.2) := by simpa using hd
        rw [drop_until_step cmp t (n + 1) s p.1 p.2 hc' hd']
        rw [drop_until_step cmp t n s p.1 p.2 hc' hd'] at h
        exact ih p.1 s1 h

theorem drop_until_fuel_le (cmp : Nat → Nat → Bool) (t f g : Nat) (s s1 : SimState)
    (hfg : f ≤ g) (h : drop_until cmp t f s = some s1) :
    drop_until cmp t g s = some s1 := by
  obtain ⟨k, rfl⟩ : ∃ k, g = f + k := ⟨g - f, by omega⟩
  induction k with
  | zero => exact h
  | succ m ih => exact drop_until_fuel_succ cmp t (f + m) s s1 (ih (by omega))

theorem drop_until_det (cmp : Nat → Nat → Bool) (t f g : Nat) (s a b : SimState)
    (ha : drop_until cmp t f s = some a) (hb : drop_until cmp t g s = some b) :
    a = b := by
  have h1 := drop_until_fuel_le cmp t f (max f g) s a (le_max_left f g) ha
  have h2 := drop_until_fuel_le cmp t g (max f g) s b (le_max_right f g) hb
  rw [h1] at h2
  exact Option.some.inj h2

theorem drop_until_inv (P : SimState → Prop)
    (hP : ∀ u u' d, drop_next_rock u = some (u', d) → P u → P u')
    (cmp : Nat → Nat → Bool) (t : Nat) :
    ∀ fuel (s s1 : SimState), P s → drop_until cmp t fuel s = some s1 → P s1 := by
  intro fuel
  induction fuel with
  | zero =>
    intro s s1 hp h
    unfold drop_until at h
    by_cases hc : cmp s.js.yielded t = true
    · rw [if_pos hc] at h
      exact (Option.some.inj h) ▸ hp
    · rw [if_neg hc] at h
      exact absurd h (by simp)
  | succ n ih =>
    intro s s1 hp h
    by_cases hc : cmp s.js.yielded t = true
    · rw [drop_until_cond _ _ _ _ hc] at h
      exact (Option.some.inj h) ▸ hp
    · have hc' : cmp s.js.yielded t = false := by simpa using hc
      cases hd : drop_next_rock s with
      | none => simp [drop_until, hc', hd] at h
      | some p =>
        have hd' : drop_next_rock s = some (p.1, p.2) := by simpa using hd
        rw [drop_until_step cmp t n s p.1 p.2 hc' hd'] at h
        exact ih p.1 s1 (hP s p.1 p.2 hd' hp) h

theorem drop_until_simInv (cmp : Nat → Nat → Bool) (t fuel : Nat) (s s1 : SimState)
    (hp : SimInv s) (h : drop_until cmp t fuel s = some s1) : SimInv s1 :=
  drop_until_inv SimInv (fun u u' d hd hu => simInv_drop u u' d hd hu) cmp t fuel s s1 hp h

theorem drop_until_growth (cmp : Nat → Nat → Bool) (t fuel : Nat) (s s1 : SimState)
    (h : drop_until cmp t fuel s = some s1) :
    s.rocksDropped ≤ s1.rocksDropped ∧ s.js.yielded ≤ s1.js.yielded
    ∧ ∀ k, k ≤ s.rocksDropped → s1.d2h.lookup k = s.d2h.lookup k := by
  refine drop_until_inv
    (P := fun u => s.rocksDropped ≤ u.rocksDropped ∧ s.js.yielded ≤ u.js.yielded
      ∧ ∀ k, k ≤ s.rocksDropped → u.d2h.lookup k = s.d2h.lookup k)
    ?_ cmp t fuel s s1 ⟨Nat.le_refl _, Nat.le_refl _, fun _ _ => rfl⟩ h
  intro u u' d hd hu
  obtain ⟨h1, h2, _, h4⟩ := drop_next_rock_spec u u' d hd
  refine ⟨by omega, ?_, ?_⟩
  · have := hu.2.1
    omega
  · intro k hk
    rw [h2]
    have hne : (k == u.rocksDropped + 1) = false := by
      have hlt : k ≠ u.rocksDropped + 1 := by
        have := hu.1
        omega
      simpa using hlt
    simp only [List.lookup, hne]
    exact hu.2.2 k hk

theorem drop_until_eq_none_of_gt (t : Nat) :
    ∀ fuel (s : SimState), t < s.js.yielded →
      drop_until (fun a b => a == b) t fuel s = none := by
  intro fuel
  induction fuel with
  | zero =>
    intro s hgt
    unfold drop_until
    rw [if_neg]
    simp only [beq_iff_eq]
    omega
  | succ n ih =>
    intro s hgt
    unfold drop_until
    rw [if_neg (by simp only [beq_iff_eq]; omega)]
    cases hd : drop_next_rock s with
    | none => rfl
    | some p =>
      have hd' : drop_next_rock s = some (p.1, p.2) := by simpa using hd
      have := (drop_next_rock_spec s p.1 p.2 hd').2.2.2
      exact ih p.1 (by omega)

/-! ### Lookup lemmas for the drop-record table -/

theorem keys_from_lookup_bounds :
    ∀ (l : List (Nat × Nat)) (n k v : Nat),
      keys_from l n = true → l.lookup k = some v → 1 ≤ k ∧ k ≤ n := by
  intro l
  induction l with
  | nil => intro n k v _ h; simp [List.lookup] at h
  | cons p t ih =>
    intro n k v hk hl
    obtain ⟨p1, p2⟩ := p
    cases n with
    | zero => simp [keys_from] at hk
    | succ m =>
      have hk' : (p1 == m + 1 && keys_from t m) = true := hk
      rw [Bool.and_eq_true] at hk'
      have hp1 : p1 = m + 1 := by simpa using hk'.1
      by_cases hkey : k = p1
      · omega
      · have hne : (k == p1) = false := by simpa using hkey
        have hl' : t.lookup k = some v := by
          simpa [List.lookup, hne] using hl
        have := ih m k v hk'.2 hl'
        omega

theorem keys_from_lookup_some :
    ∀ (l : List (Nat × Nat)) (n k : Nat),
      keys_from l n = true → 1 ≤ k → k ≤ n → ∃ v, l.lookup k = some v := by
  intro l
  induction l with
  | nil =>
    intro n k hk h1 h2
    have : n = 0 := by simpa [keys_from] using hk
    omega
  | cons p t ih =>
    intro n k hk h1 h2
    obtain ⟨p1, p2⟩ := p
    cases n with
    | zero => simp [keys_from] at hk
    | succ m =>
      have hk' : (p1 == m + 1 && keys_from t m) = true := hk
      rw [Bool.and_eq_true] at hk'
      have hp1 : p1 = m + 1 := by simpa using hk'.1
      by_cases hkey : k = p1
      · refine ⟨p2, ?_⟩
        have : (k == p1) = true := by simpa using hkey
        simp [List.lookup, this]
      · have hne : (k == p1) = false := by simpa using hkey
        have hk2 : k ≤ m := by omega
        obtain ⟨v, hv⟩ := ih m k hk'.2 h1 hk2
        exact ⟨v, by simpa [List.lookup, hne] using hv⟩

theorem values_mono_tail (p : Nat × Nat) (t : List (Nat × Nat))
    (h : values_mono (p :: t) = true) : values_mono t = true := by
  cases t with
  | nil => rfl
  | cons q t' =>
    have h' : (decide (q.2 ≤ p.2) && values_mono (q :: t')) = true := h
    rw [Bool.and_eq_true] at h'
    exact h'.2

theorem lookup_le_head :
    ∀ (t : List (Nat × Nat)) (p : Nat × Nat) (k v : Nat),
      values_mono (p :: t) = true → (p :: t).lookup k = some v → v ≤ p.2 := by
  intro t
  induction t with
  | nil =>
    intro p k v _ hl
    obtain ⟨p1, p2⟩ := p
    by_cases hkey : k = p1
    · have hb : (k == p1) = true := by simpa using hkey
      have : p2 = v := by simpa [List.lookup, hb] using hl
      omega
    · have hne : (k == p1) = false := by simpa using hkey
      simp [List.lookup, hne] at hl
  | cons q t' ih =>
    intro p k v hv hl
    obtain ⟨p1, p2⟩ := p
    by_cases hkey : k = p1
    · have hb : (k == p1) = true := by simpa using hkey
      have : p2 = v := by simpa [List.lookup, hb] using hl
      omega
    · have hne : (k == p1) = false := by simpa using hkey
      have hl' : (q :: t').lookup k = some v := by
        simpa [List.lookup, hne] using hl
      have hv' : (decide (q.2 ≤ (p1, p2).2) && values_mono (q :: t')) = true := hv
      rw [Bool.and_eq_true] at hv'
      have h1 := ih q k v hv'.2 hl'
      have h2 : q.2 ≤ p2 := by simpa using hv'.1
      omega

theorem lookup_mono :
    ∀ (l : List (Nat × Nat)) (n i j vi vj : Nat),
      keys_from l n = true → values_mono l = true → i ≤ j →
      l.lookup i = some vi → l.lookup j = some vj → vi ≤ vj := by
  intro l
  induction l with
  | nil => intro n i j vi vj _ _ _ hi _; simp [List.lookup] at hi
  | cons p t ih =>
    intro n i j vi vj hk hv hij hi hj
    obtain ⟨p1, p2⟩ := p
    cases n with
    | zero => simp [keys_from] at hk
    | succ m =>
      have hk' : (p1 == m + 1 && keys_from t m) = true := hk
      rw [Bool.and_eq_true] at hk'
      have hp1 : p1 = m + 1 := by simpa using hk'.1
      by_cases hjkey : j = p1
      · have hb : (j == p1) = true := by simpa using hjkey
        have hvj : p2 = vj := by simpa [List.lookup, hb] using hj
        have := lookup_le_head t (p1, p2) i vi hv hi
        simp at this
        omega
      · have hnej : (j == p1) = false := by simpa using hjkey
        have hj' : t.lookup j = some vj := by simpa [List.lookup, hnej] using hj
        have hjb := keys_from_lookup_bounds t m j vj hk'.2 hj'
        have hikey : i ≠ p1 := by omega
        have hnei : (i == p1) = false := by simpa using hikey
        have hi' : t.lookup i = some vi := by simpa [List.lookup, hnei] using hi
        exact ih m i j vi vj hk'.2 (values_mono_tail _ _ hv) hij hi' hj'

/-- In an invariant state with at least one drop, looking up the latest
drop yields the current height. -/
theorem lookup_top (s : SimState) (hinv : SimInv s) (h1 : 1 ≤ s.rocksDropped) :
    s.d2h.lookup s.rocksDropped = some (pf_height s.field) := by
  obtain ⟨hk, _, hh⟩ := hinv
  cases hd : s.d2h with
  | nil =>
    rw [hd] at hk
    have : s.rocksDropped = 0 := by simpa [keys_from] using hk
    omega
  | cons p t =>
    obtain ⟨p1, p2⟩ := p
    rw [hd] at hk
    cases hn : s.rocksDropped with
    | zero => omega
    | succ m =>
      rw [hn] at hk
      have hk' : (p1 == m + 1 && keys_from t m) = true := hk
      rw [Bool.and_eq_true] at hk'
      have hp1 : p1 = m + 1 := by simpa using hk'.1
      have hp2 : p2 = pf_height s.field := by
        unfold head_link at hh
        rw [hd] at hh
        simpa using hh
      have hb : (m + 1 == p1) = true := by simpa using hp1.symm
      simp [List.lookup, hb, hp2]

/-! ### What construction guarantees -/

/-- Everything `construct` guarantees about a successfully constructed
simulator: the state invariant, at least one pre-cycle drop, at least one
drop per cycle, the drop count bookkeeping, the recorded pre-cycle
height, and the link between the cycle height and the final field
height. -/
theorem construct_spec (jets : List Char) (fuel : Nat) (p : PlayFieldCycle)
    (h : construct jets fuel = some p) :
    SimInv p.sim
    ∧ 1 ≤ p.dropsBefore
    ∧ 1 ≤ p.cycleDrops
    ∧ p.sim.rocksDropped = p.dropsBefore + p.cycleDrops
    ∧ p.sim.d2h.lookup p.dropsBefore = some p.heightBefore
    ∧ (p.heightBefore : Int) + p.cycleHeight = (pf_height p.sim.field : Int) := by
  unfold construct at h
  split at h
  · exact absurd h (by simp)
  rename_i s1 h1
  split at h
  · exact absurd h (by simp)
  rename_i hB h2
  split at h
  · exact absurd h (by simp)
  rename_i s2 h3
  · have hp := Option.some.inj h
    subst hp
    have hinv1 := drop_until_simInv _ _ _ _ _ (simInv_init jets) h1
    have hinv2 := drop_until_simInv _ _ _ _ _ hinv1 h3
    have hB1 : 1 ≤ s1.rocksDropped :=
      (keys_from_lookup_bounds s1.d2h s1.rocksDropped s1.rocksDropped hB hinv1.1 h2).1
    have hperiod : 0 < jets_per_cycle jets := by
      by_contra hz
      have h0 : jets_per_cycle jets = 0 := by omega
      have hcz : drop_until (fun a b => b ≤ a) (jets_per_cycle jets) fuel (init_state jets)
          = some (init_state jets) :=
        drop_until_cond _ _ _ _ (by simp [init_state, h0])
      rw [h1] at hcz
      have hs1 : s1 = init_state jets := Option.some.inj hcz
      rw [hs1] at h2
      simp [init_state, List.lookup] at h2
    have hgrow2 := drop_until_growth _ _ _ _ _ h3
    have hstrict : s1.rocksDropped < s2.rocksDropped := by
      have hc1 : ((fun a b => a == b) s1.js.yielded
          (s1.js.yielded + jets_per_cycle jets)) = false := by
        simp only [beq_eq_false_iff_ne]
        omega
      cases fuel with
      | zero =>
        rw [drop_until] at h3
        rw [if_neg (by simp [hc1])] at h3
        exact absurd h3 (by simp)
      | succ g =>
        cases hd : drop_next_rock s1 with
        | none =>
          rw [drop_until, if_neg (by simp [hc1]), hd] at h3
          exact absurd h3 (by simp)
        | some q =>
          have hd' : drop_next_rock s1 = some (q.1, q.2) := by simpa using hd
          rw [drop_until_step _ _ _ _ _ _ hc1 hd'] at h3
          have hg := drop_until_growth _ _ _ _ _ h3
          have hq := drop_next_rock_spec s1 q.1 q.2 hd'
          omega
    refine ⟨hinv2, hB1, ?_, ?_, ?_, ?_⟩
    · show 1 ≤ s2.rocksDropped - s1.rocksDropped
      omega
    · show s2.rocksDropped = s1.rocksDropped + (s2.rocksDropped - s1.rocksDropped)
      omega
    · show s2.d2h.lookup s1.rocksDropped = some hB
      have := hgrow2.2.2 s1.rocksDropped (Nat.le_refl _)
      rw [this]
      exact h2
    · show (hB : Int) + ((pf_height s2.field : Int) - (hB : Int)) = (pf_height s2.field : Int)
      ring

/-! ### The extrapolation formula -/

/-- For `n ≥ drops_before_cycle` the code's floored integer `divmod`
agrees with the spec's natural-number `divmod`. -/
theorem gtt_eq_spec_height (p : PlayFieldCycle) (n : Nat)
    (h : p.dropsBefore ≤ n) : get_tallest_tower p n = spec_height p n := by
  simp only [get_tallest_tower, spec_height]
  by_cases hc : p.cycleDrops = 0
  · simp [hc]
  · rw [if_neg hc, if_neg hc]
    have hsub : ((n : Int) - (p.dropsBefore : Int)) = ((n - p.dropsBefore : Nat) : Int) := by
      omega
    have hq : Int.ediv ((n : Int) - (p.dropsBefore : Int)) (p.cycleDrops : Int)
        = (((n - p.dropsBefore) / p.cycleDrops : Nat) : Int) := by
      rw [hsub]
      exact_mod_cast rfl
    have hr : Int.emod ((n : Int) - (p.dropsBefore : Int)) (p.cycleDrops : Int)
        = (((n - p.dropsBefore) % p.cycleDrops : Nat) : Int) := by
      rw [hsub]
      exact_mod_cast rfl
    rw [hq, hr, Int.toNat_natCast]

/-- In an invariant state the extrapolation is total above the pre-cycle
drop count, and its value is the recorded-table formula. -/
theorem gtt_formula (p : PlayFieldCycle) (n : Nat)
    (hinv : SimInv p.sim) (hC : 1 ≤ p.cycleDrops) (hB : 1 ≤ p.dropsBefore)
    (htot : p.sim.rocksDropped = p.dropsBefore + p.cycleDrops)
    (hn : p.dropsBefore ≤ n) :
    ∃ v, p.sim.d2h.lookup (p.dropsBefore + (n - p.dropsBefore) % p.cycleDrops) = some v
      ∧ get_tallest_tower p n
        = some ((p.heightBefore : Int)
            + (((n - p.dropsBefore) / p.cycleDrops : Nat) : Int) * p.cycleHeight
            + ((v : Int) - (p.heightBefore : Int))) := by
  have hmodlt : (n - p.dropsBefore) % p.cycleDrops < p.cycleDrops :=
    Nat.mod_lt _ (by omega)
  obtain ⟨v, hv⟩ := keys_from_lookup_some p.sim.d2h p.sim.rocksDropped
    (p.dropsBefore + (n - p.dropsBefore) % p.cycleDrops) hinv.1 (by omega) (by omega)
  refine ⟨v, hv, ?_⟩
  rw [gtt_eq_spec_height p n hn]
  unfold spec_height
  rw [if_neg (by omega)]
  simp only [hv]

/-- One-step monotonicity of the extrapolated height. -/
theorem gtt_mono_step (p : PlayFieldCycle)
    (hinv : SimInv p.sim) (hC : 1 ≤ p.cycleDrops) (hB : 1 ≤ p.dropsBefore)
    (htot : p.sim.rocksDropped = p.dropsBefore + p.cycleDrops)
    (hlook : p.sim.d2h.lookup p.dropsBefore = some p.heightBefore)
    (hlink : (p.heightBefore : Int) + p.cycleHeight = (pf_height p.sim.field : Int))
    (n : Nat) (hn : p.dropsBefore ≤ n) (a b : Int)
    (ha : get_tallest_tower p n = some a) (hb : get_tallest_tower p (n + 1) = some b) :
    a ≤ b := by
  obtain ⟨va, hva, heqa⟩ := gtt_formula p n hinv hC hB htot hn
  obtain ⟨vb, hvb, heqb⟩ := gtt_formula p (n + 1) hinv hC hB htot (by omega)
  rw [ha] at heqa
  rw [hb] at heqb
  have hasome := Option.some.inj heqa
  have hbsome := Option.some.inj heqb
  set m := n - p.dropsBefore with hm
  have hm1 : n + 1 - p.dropsBefore = m + 1 := by omega
  rw [hm1] at hvb hbsome
  set q := m / p.cycleDrops with hqdef
  set r := m % p.cycleDrops with hrdef
  have hqr : m = q * p.cycleDrops + r := by
    rw [hqdef, hrdef, Nat.mul_comm]
    exact (Nat.div_add_mod m p.cycleDrops).symm
  have hrlt : r < p.cycleDrops := Nat.mod_lt _ (by omega)
  by_cases hcase : r + 1 < p.cycleDrops
  · have hsplit : m + 1 = (r + 1) + q * p.cycleDrops := by omega
    have hmod : (m + 1) % p.cycleDrops = r + 1 := by
      rw [hsplit, Nat.add_mul_mod_self_right]
      exact Nat.mod_eq_of_lt hcase
    have hdiv : (m + 1) / p.cycleDrops = q := by
      rw [hsplit, Nat.add_mul_div_right _ _ (show 0 < p.cycleDrops by omega)]
      rw [Nat.div_eq_of_lt hcase]
      exact Nat.zero_add q
    rw [hmod] at hvb
    rw [hdiv] at hbsome
    have hmono : va ≤ vb := by
      refine lookup_mono p.sim.d2h p.sim.rocksDropped
        (p.dropsBefore + r) (p.dropsBefore + (r + 1)) va vb hinv.1 hinv.2.1 (by omega) hva ?_
      exact hvb
    have hvacast : (va : Int) ≤ (vb : Int) := by exact_mod_cast hmono
    rw [hasome, hbsome]
    linarith
  · have hreq : r + 1 = p.cycleDrops := by omega
    have hsplit : m + 1 = (q + 1) * p.cycleDrops := by
      have hdistr : (q + 1) * p.cycleDrops = q * p.cycleDrops + p.cycleDrops := by ring
      omega
    have hmod : (m + 1) % p.cycleDrops = 0 := by
      rw [hsplit]
      exact Nat.mul_mod_left _ _
    have hdiv : (m + 1) / p.cycleDrops = q + 1 := by
      rw [hsplit]
      exact Nat.mul_div_cancel _ (by omega)
    rw [hmod] at hvb
    rw [hdiv] at hbsome
    rw [Nat.add_zero] at hvb
    have hvbB : vb = p.heightBefore := by
      rw [hlook] at hvb
      exact (Option.some.inj hvb).symm
    have htop : p.sim.d2h.lookup p.sim.rocksDropped = some (pf_height p.sim.field) :=
      lookup_top p.sim hinv (by omega)
    have hvale : va ≤ pf_height p.sim.field := by
      refine lookup_mono p.sim.d2h p.sim.rocksDropped
        (p.dropsBefore + r) p.sim.rocksDropped va (pf_height p.sim.field)
        hinv.1 hinv.2.1 (by omega) hva htop
    have hvacast : (va : Int) ≤ (pf_height p.sim.field : Int) := by exact_mod_cast hvale
    have hexp : (((q + 1 : Nat)) : Int) * p.cycleHeight
        = ((q : Nat) : Int) * p.cycleHeight + p.cycleHeight := by
      push_cast
      ring
    rw [hasome, hbsome, hvbB, hexp]
    linarith

/-! ### Concrete evaluations -/

theorem construct_small : construct small_jets 10 = some small_cycle := by decide

theorem construct_test : construct test_jets 40 = some test_cycle := by decide

theorem bad_phase1 :
    drop_until (fun a b => b ≤ a) (jets_per_cycle bad_jets) 2 (init_state bad_jets)
      = some badS1 := by decide

theorem bad_drop1 : drop_next_rock badS1 = some (badS2, 3) := by decide

theorem bad_drop2 : drop_next_rock badS2 = some (badS3, 5) := by decide

/-- On `bad_jets` the second phase of `_set_cycle_info` never finishes:
after two more drops the cumulative jet count passes the equality target
`13` without hitting it, and it only ever grows. -/
theorem bad_phase2_none (fuel : Nat) :
    drop_until (fun a b => a == b) (badS1.js.yielded + jets_per_cycle bad_jets) fuel badS1
      = none := by
  have hT : badS1.js.yielded + jets_per_cycle bad_jets = 13 := by decide
  rw [hT]
  cases fuel with
  | zero => decide
  | succ g =>
    have hc1 : ((fun a b => a == b) badS1.js.yielded 13) = false := by decide
    rw [drop_until_step _ _ _ _ _ _ hc1 bad_drop1]
    cases g with
    | zero => decide
    | succ g2 =>
      have hc2 : ((fun a b => a == b) badS2.js.yielded 13) = false := by decide
      rw [drop_until_step _ _ _ _ _ _ hc2 bad_drop2]
      exact drop_until_eq_none_of_gt 13 g2 badS3 (by decide)

/-! ### Bit-level helpers -/

theorem bit_set_eq_testBit (n b : Nat) : bit_set n b = n.testBit b := by
  unfold bit_set
  rw [Nat.and_comm, Nat.and_two_pow]
  cases htb : n.testBit b
  · have hpos : 0 < 2 ^ b := Nat.pos_pow_of_pos b (by omega)
    have : Bool.toNat false * 2 ^ b = 0 := by simp
    rw [this]
    simp only [beq_eq_false_iff_ne]
    omega
  · simp

theorem testBit_foldl_lor (l : List Nat) (a : Nat) (i : Nat) :
    (l.foldl (fun x y => x ||| y) a).testBit i
      = (a.testBit i || l.any fun x => x.testBit i) := by
  induction l generalizing a with
  | nil => simp
  | cons x xs ih =>
    simp only [List.foldl_cons, List.any_cons]
    rw [ih, Nat.testBit_lor]
    cases a.testBit i <;> cases x.testBit i <;> simp

/-! ### Claim theorems -/

/-- C7: a rock whose rows together cover all seven columns of the shaft
can never shift sideways: both `_can_move_to_left` and
`_can_move_to_right` reject the move on the boundary check alone, for
every destination rows slice. -/
theorem C7_full_width_never_shifts (rock : List Nat)
    (hfull : rock.foldl (fun x y => x ||| y) 0 = 127) (dest : List Nat) :
    can_move_to_left rock dest = false ∧ can_move_to_right rock dest = false := by
  have hbit : ∀ i, i < 7 → (rock.any fun x => x.testBit i) = true := by
    intro i hi
    have h := congrArg (fun n => n.testBit i) hfull
    simp only at h
    rw [testBit_foldl_lor] at h
    have h127 : Nat.testBit 127 i = true := by
      interval_cases i <;> decide
    rw [h127, Nat.zero_testBit, Bool.false_or] at h
    exact h
  have hany6 : (rock.any fun n => bit_set n 6) = true := by
    rw [show (fun n => bit_set n 6) = (fun n => Nat.testBit n 6) from
      funext fun n => bit_set_eq_testBit n 6]
    exact hbit 6 (by omega)
  have hany0 : (rock.any fun n => bit_set n 0) = true := by
    rw [show (fun n => bit_set n 0) = (fun n => Nat.testBit n 0) from
      funext fun n => bit_set_eq_testBit n 0]
    exact hbit 0 (by omega)
  constructor
  · unfold can_move_to_left all_leftmost_bit_cleared
    rw [hany6]
    rfl
  · unfold can_move_to_right all_rightmost_bit_cleared
    rw [hany0]
    rfl

/-- Witness for C7 at a concrete seven-column rock and empty shaft. -/
theorem C7_witness :
    (([64, 32, 16, 8, 4, 2, 1] : List Nat).foldl (fun x y => x ||| y) 0 = 127)
    ∧ can_move_to_left [64, 32, 16, 8, 4, 2, 1] [0, 0, 0, 0, 0, 0, 0] = false
    ∧ can_move_to_right [64, 32, 16, 8, 4, 2, 1] [0, 0, 0, 0, 0, 0, 0] = false :=
  ⟨by decide,
   (C7_full_width_never_shifts [64, 32, 16, 8, 4, 2, 1] (by decide) [0, 0, 0, 0, 0, 0, 0]).1,
   (C7_full_width_never_shifts [64, 32, 16, 8, 4, 2, 1] (by decide) [0, 0, 0, 0, 0, 0, 0]).2⟩

/-- C4: the rock merged into the field by `_put_on_playfield` never
overlaps an occupied field bit: whatever the simulator state, the rest
position returned by the drop loop is collision-free, so the bitwise-or
merge is a disjoint union. -/
theorem C4_no_overlap_at_rest (s : SimState) (r : List Nat) (o : Nat)
    (j : JetStream) (d : Nat)
    (h : drop_loop (prepared_field s.field) (prepared_field s.field).length
        (rocks.getD (s.rocksDropped % 5) []) ((prepared_field s.field).length - 1) s.js
        = some (r, o, j, d)) :
    rows_overlap r (((prepared_field s.field).drop o).take r.length) = false := by
  refine drop_loop_no_overlap _ _ _ _ _ _ _ _ _ ?_ h
  have h1 : (prepared_field s.field).drop ((prepared_field s.field).length - 1)
      = ([0] : List Nat) := by
    rw [prepared_field_suffix s.field 1 (by omega)]
    rfl
  rw [h1]
  exact rows_overlap_zeros _ _ (fun x hx => by simpa using List.mem_of_mem_take hx)

/-- Witness for C4: the very first drop on the one-jet pattern rests at
offset `1` with the shifted bar `[120]`, which does not overlap the
field. -/
theorem C4_witness :
    (drop_loop (prepared_field (init_state bad_jets).field)
        (prepared_field (init_state bad_jets).field).length
        (rocks.getD ((init_state bad_jets).rocksDropped % 5) [])
        ((prepared_field (init_state bad_jets).field).length - 1) (init_state bad_jets).js
      = some ([120], 1, { jets := ['<'], offset := 0, yielded := 4 }, 3))
    ∧ rows_overlap [120]
        (((prepared_field (init_state bad_jets).field).drop 1).take 1) = false :=
  ⟨by decide,
   C4_no_overlap_at_rest (init_state bad_jets) [120] 1
     { jets := ['<'], offset := 0, yielded := 4 } 3 (by decide)⟩

/-- C6 as stated is false: no completed drop ever rests with zero
successful down-moves, for any simulator state, because right after
`_prepare_drop` the two rows under the rock are empty and the first
down-move always succeeds. -/
theorem C6_counterexample :
    ¬ ∃ (s : SimState) (r : List Nat) (o : Nat) (j : JetStream),
      drop_loop (prepared_field s.field) (prepared_field s.field).length
          (rocks.getD (s.rocksDropped % 5) []) ((prepared_field s.field).length - 1) s.js
        = some (r, o, j, 0) := by
  rintro ⟨s, r, o, j, h⟩
  obtain ⟨k, hk⟩ : ∃ k, (prepared_field s.field).length = k + 1 :=
    ⟨(prepared_field s.field).length - 1, by
      have := prepared_field_length s.field
      omega⟩
  rw [hk] at h
  simp only [drop_loop] at h
  have hfd := first_down_succeeds s.field
    (try_move_sideways (prepared_field s.field) (rocks.getD (s.rocksDropped % 5) [])
      ((prepared_field s.field).length - 1) s.js).1
  rw [hk] at hfd
  rw [if_pos hfd] at h
  cases hrec : drop_loop (prepared_field s.field) k
      (try_move_sideways (prepared_field s.field) (rocks.getD (s.rocksDropped % 5) [])
        (k + 1 - 1) s.js).1 (k + 1 - 1 - 1)
      (try_move_sideways (prepared_field s.field) (rocks.getD (s.rocksDropped % 5) [])
        (k + 1 - 1) s.js).2 with
  | none => rw [hrec] at h; exact absurd h (by simp)
  | some q =>
    rw [hrec] at h
    obtain ⟨r', o', j', d'⟩ := q
    simp only [Option.some.injEq, Prod.mk.injEq] at h
    omega

/-- C6 amended: a rock can rest at the spawn minimum of exactly three
successful down-moves (a flush fit on top of the tower): the very first
drop on the one-jet pattern does so. -/
theorem C6_min_down_moves :
    (drop_next_rock (init_state bad_jets)).map (fun q => q.2) = some 3 := by decide

/-- C1: for every drop count at least the pre-cycle drop count,
`get_tallest_tower` returns exactly the spec's formula
`height_before + q * height_per_cycle + (recorded[drops_before + r] -
height_before)` with `(q, r) = divmod (N - drops_before) drops_per_cycle`
over the drop-record table. -/
theorem C1_extrapolation_formula (p : PlayFieldCycle) (n : Nat)
    (h : p.dropsBefore ≤ n) :
    get_tallest_tower p n = spec_height p n :=
  gtt_eq_spec_height p n h

/-- Witness for C1 on the constructed two-jet simulator at `N = 5`. -/
theorem C1_witness :
    small_cycle.dropsBefore ≤ 5
    ∧ get_tallest_tower small_cycle 5 = spec_height small_cycle 5 :=
  ⟨by decide, C1_extrapolation_formula small_cycle 5 (by decide)⟩

/-- C2: cycle linearity.  On every successfully constructed simulator,
`H (drops_before + k * drops_per_cycle) = height_before + k *
height_per_cycle` for every natural `k`. -/
theorem C2_cycle_linearity (jets : List Char) (fuel : Nat) (p : PlayFieldCycle)
    (h : construct jets fuel = some p) (k : Nat) :
    get_tallest_tower p (p.dropsBefore + k * p.cycleDrops)
      = some ((p.heightBefore : Int) + (k : Int) * p.cycleHeight) := by
  obtain ⟨hinv, hB1, hC1, htot, hlook, hlink⟩ := construct_spec jets fuel p h
  obtain ⟨v, hv, heq⟩ := gtt_formula p (p.dropsBefore + k * p.cycleDrops)
    hinv hC1 hB1 htot (by omega)
  have hsub : p.dropsBefore + k * p.cycleDrops - p.dropsBefore = k * p.cycleDrops := by
    omega
  rw [hsub] at hv heq
  rw [Nat.mul_mod_left] at hv
  rw [Nat.mul_div_cancel _ (show 0 < p.cycleDrops by omega)] at heq
  rw [Nat.add_zero] at hv
  rw [hlook] at hv
  have hveq : p.heightBefore = v := Option.some.inj hv
  rw [heq, ← hveq]
  congr 1
  ring

/-- Witness for C2 on the constructed two-jet simulator at `k = 3`. -/
theorem C2_witness :
    construct small_jets 10 = some small_cycle
    ∧ get_tallest_tower small_cycle (small_cycle.dropsBefore + 3 * small_cycle.cycleDrops)
        = some ((small_cycle.heightBefore : Int) + (3 : Int) * small_cycle.cycleHeight) :=
  ⟨by decide, C2_cycle_linearity small_jets 10 small_cycle (by decide) 3⟩

/-- C3 as stated is false: on the non-empty jet pattern `"<"`,
construction never terminates — the second phase's cumulative jet count
jumps over the equality target, which it can then never meet. -/
theorem C3_counterexample : construct_diverges bad_jets := by
  intro fuel
  unfold construct
  cases h1 : drop_until (fun a b => b ≤ a) (jets_per_cycle bad_jets) fuel (init_state bad_jets) with
  | none => simp only [h1]
  | some s1 =>
    simp only [h1]
    have hs1 : s1 = badS1 := drop_until_det _ _ fuel 2 _ s1 badS1 h1 bad_phase1
    subst hs1
    have hlk : List.lookup badS1.rocksDropped badS1.d2h = some 4 := by decide
    simp only [hlk]
    rw [bad_phase2_none fuel]

/-- C3 amended: construction does terminate on the published test
pattern, and there within `2 × period` drops (72 of at most 400). -/
theorem C3_termination_on_test_input :
    construct_drops test_jets 40 = some 72 ∧ 72 ≤ 2 * jets_per_cycle test_jets := by
  constructor
  · unfold construct_drops
    rw [construct_test]
    rfl
  · decide

/-- C5 as stated is false: on the constructed two-jet simulator (whose
pre-cycle drop count is `3`) the request `N = 0 < 3` does not fail — the
code returns the (meaningless) extrapolated height `1`. -/
theorem C5_counterexample :
    (construct small_jets 10).bind (fun p => get_tallest_tower p 0) = some 1
    ∧ (construct small_jets 10).map (fun p => p.dropsBefore) = some 3 := by
  constructor <;> decide

/-- The match-reduction step of `get_tallest_tower` when the record
lookup succeeds. -/
theorem gtt_some_of_lookup (p : PlayFieldCycle) (n : Nat) (hC : p.cycleDrops ≠ 0)
    (v : Nat)
    (hv : p.sim.d2h.lookup (p.dropsBefore
        + (Int.emod ((n : Int) - (p.dropsBefore : Int)) (p.cycleDrops : Int)).toNat)
      = some v) :
    get_tallest_tower p n
      = some ((p.heightBefore : Int)
          + Int.ediv ((n : Int) - (p.dropsBefore : Int)) (p.cycleDrops : Int) * p.cycleHeight
          + ((v : Int) - (p.heightBefore : Int))) := by
  simp only [get_tallest_tower]
  rw [if_neg hC]
  simp only [hv]

/-- C5 amended: the source has no guard for `N` below the pre-cycle drop
count — `get_tallest_tower` still returns a value there (computed with
Python's floored `divmod`, so with a negative cycle count), rather than
failing with `InvalidArgument`. -/
theorem C5_no_guard_below_precycle (jets : List Char) (fuel : Nat) (p : PlayFieldCycle)
    (h : construct jets fuel = some p) (n : Nat) (hn : n < p.dropsBefore) :
    ∃ v, get_tallest_tower p n = some v := by
  obtain ⟨hinv, hB1, hC1, htot, hlook, hlink⟩ := construct_spec jets fuel p h
  have hCz : (p.cycleDrops : Int) ≠ 0 := by
    exact_mod_cast show p.cycleDrops ≠ 0 by omega
  have hr0 : 0 ≤ Int.emod ((n : Int) - (p.dropsBefore : Int)) (p.cycleDrops : Int) :=
    Int.emod_nonneg _ hCz
  have hrlt : Int.emod ((n : Int) - (p.dropsBefore : Int)) (p.cycleDrops : Int)
      < (p.cycleDrops : Int) :=
    Int.emod_lt_of_pos _ (by exact_mod_cast show 0 < p.cycleDrops by omega)
  obtain ⟨v, hv⟩ := keys_from_lookup_some p.sim.d2h p.sim.rocksDropped
    (p.dropsBefore
      + (Int.emod ((n : Int) - (p.dropsBefore : Int)) (p.cycleDrops : Int)).toNat)
    hinv.1 (by omega) (by omega)
  exact ⟨_, gtt_some_of_lookup p n (by omega) v hv⟩

/-- Witness for the amended C5 on the two-jet simulator at `N = 0`. -/
theorem C5_witness :
    construct small_jets 10 = some small_cycle
    ∧ 0 < small_cycle.dropsBefore
    ∧ ∃ v, get_tallest_tower small_cycle 0 = some v :=
  ⟨by decide, by decide,
   C5_no_guard_below_precycle small_jets 10 small_cycle (by decide) 0 (by decide)⟩

/-- C8: monotonicity.  On every successfully constructed simulator the
extrapolated tower height is non-decreasing for drop counts at or above
the pre-cycle drop count. -/
theorem C8_monotone (jets : List Char) (fuel : Nat) (p : PlayFieldCycle)
    (h : construct jets fuel = some p) (m n : Nat)
    (hm : p.dropsBefore ≤ m) (hmn : m ≤ n) :
    ∃ a b, get_tallest_tower p m = some a ∧ get_tallest_tower p n = some b ∧ a ≤ b := by
  obtain ⟨hinv, hB1, hC1, htot, hlook, hlink⟩ := construct_spec jets fuel p h
  induction n, hmn using Nat.le_induction with
  | base =>
    obtain ⟨v, hv, heq⟩ := gtt_formula p m hinv hC1 hB1 htot hm
    exact ⟨_, _, heq, heq, le_refl _⟩
  | succ n hmn ih =>
    obtain ⟨a, b, ha, hb, hab⟩ := ih
    obtain ⟨v', hv', heq'⟩ := gtt_formula p (n + 1) hinv hC1 hB1 htot (by omega)
    refine ⟨a, _, ha, heq', le_trans hab ?_⟩
    exact gtt_mono_step p hinv hC1 hB1 htot hlook hlink n (by omega) b _ hb heq'

/-- Witness for C8 on the two-jet simulator between drops `3` and `7`. -/
theorem C8_witness :
    construct small_jets 10 = some small_cycle
    ∧ ∃ a b, get_tallest_tower small_cycle 3 = some a
        ∧ get_tallest_tower small_cycle 7 = some b ∧ a ≤ b :=
  ⟨by decide, C8_monotone small_jets 10 small_cycle (by decide) 3 7 (by decide) (by decide)⟩

/-- C9: on the published test jet pattern the simulator answers
`H 2022 = 3068` and `H 10^12 = 1514285714288`. -/
theorem C9_reference_scenario :
    (construct test_jets 40).bind (fun p => get_tallest_tower p 2022) = some 3068
    ∧ (construct test_jets 40).bind (fun p => get_tallest_tower p 1000000000000)
        = some 1514285714288 := by
  rw [construct_test]
  constructor <;> decide

/-- C10: totality of the extrapolation under its precondition — on every
successfully constructed simulator the cycle length is positive (no
division by zero) and the record lookup succeeds for every drop count at
or above the pre-cycle drop count, so `get_tallest_tower` never fails
there. -/
theorem C10_total_above_precycle (jets : List Char) (fuel : Nat) (p : PlayFieldCycle)
    (h : construct jets fuel = some p) :
    0 < p.cycleDrops ∧ ∀ n, p.dropsBefore ≤ n → ∃ v, get_tallest_tower p n = some v := by
  obtain ⟨hinv, hB1, hC1, htot, hlook, hlink⟩ := construct_spec jets fuel p h
  refine ⟨by omega, fun n hn => ?_⟩
  obtain ⟨v, hv, heq⟩ := gtt_formula p n hinv hC1 hB1 htot hn
  exact ⟨_, heq⟩

/-- Witness for C10 on the two-jet simulator at `N = 10`. -/
theorem C10_witness :
    construct small_jets 10 = some small_cycle
    ∧ 0 < small_cycle.cycleDrops
    ∧ ∃ v, get_tallest_tower small_cycle 10 = some v :=
  ⟨by decide,
   (C10_total_above_precycle small_jets 10 small_cycle (by decide)).1,
   (C10_total_above_precycle small_jets 10 small_cycle (by decide)).2 10 (by decide)⟩

end AoC17
